import Mathlib

/-!
Verification of the Record Resolution Engine of the zillow-scraper service.

The source is JavaScript (an Express route plus helper functions).  We give a
shallow embedding: JSON-like values are modelled by the mutual inductive type
JVal below, stateless helper functions are translated to Lean functions, and
the two external collaborators of the engine (the document fetch performed by
the headless browser and the HTTP JSON fetch) are modelled as oracle fields of
an environment record, as the specification's section 6 prescribes.

Modelling conventions, stated once here:
* JavaScript strings are ASCII in every case the claims exercise; toLowerCase
  is modelled by ASCII lowering, and trim by removal of leading and trailing
  whitespace characters.
* JavaScript numbers appearing in the engine (zestimate, zpid, scores) are
  integer-valued; they are modelled by Int.
* Request body fields are modelled as present strings or absent, which covers
  every input the claims quantify over.
-/

/- ===================== JSON-like values ===================== -/

mutual

inductive JVal where
  | undefined
  | null
  | bool (b : Bool)
  | num (n : Int)
  | str (s : String)
  | obj (fields : JObj)
  | arr (elems : JArr)

inductive JObj where
  | nil
  | cons (key : String) (val : JVal) (rest : JObj)

inductive JArr where
  | nil
  | cons (head : JVal) (tail : JArr)

end

/-- Build a JObj from an association list (object literal with distinct keys). -/
def objOf : List (String × JVal) → JObj
  | [] => .nil
  | (k, v) :: rest => .cons k v (objOf rest)

/-- Build a JArr from a list of values. -/
def arrOf : List JVal → JArr
  | [] => .nil
  | v :: rest => .cons v (arrOf rest)

/-- The elements of a JSON array, as a Lean list. -/
def JArr.toList : JArr → List JVal
  | .nil => []
  | .cons v rest => v :: rest.toList

/-- First binding of a key in an object.  JSON.parse keeps the last duplicate
key; we assume parsed objects have distinct keys, as every payload considered
by the claims does. -/
def JObj.find : JObj → String → Option JVal
  | .nil, _ => none
  | .cons k v rest, key => if k == key then some v else rest.find key

/-- Index into a JSON array. -/
def JArr.get? : JArr → Nat → Option JVal
  | .nil, _ => none
  | .cons v _, 0 => some v
  | .cons _ rest, n + 1 => rest.get? n

/-- JavaScript truthiness of a value (NaN does not arise: see header). -/
def JVal.truthy : JVal → Bool
  | .undefined => false
  | .null => false
  | .bool b => b
  | .num n => n != 0
  | .str s => s != ""
  | .obj _ => true
  | .arr _ => true

/-- A value that is null or undefined (fails the v !== undefined && v !== null
test of the source). -/
def JVal.isNullish : JVal → Bool
  | .undefined => true
  | .null => true
  | _ => false

/-- Is the value an array (Array.isArray)? -/
def JVal.isArr : JVal → Bool
  | .arr _ => true
  | _ => false

/-- Parse a canonical base-10 numeral, as JavaScript does for array indices. -/
def parseIdx (s : String) : Option Nat :=
  if s ≠ "" && s.toList.all Char.isDigit && (s == "0" || s.toList.head? != some '0') then
    some (s.toList.foldl (fun a c => a * 10 + (c.toNat - '0'.toNat)) 0)
  else none

/-- Property access v[k].  Objects look keys up; arrays accept canonical
numeric indices; every other receiver yields undefined (the claims never
index into primitive wrapper properties). -/
def getFieldJS (v : JVal) (k : String) : JVal :=
  match v with
  | .obj fs =>
    match fs.find k with
    | some x => x
    | none => .undefined
  | .arr es =>
    match parseIdx k with
    | some i =>
      match es.get? i with
      | some x => x
      | none => .undefined
    | none => .undefined
  | _ => .undefined

/-- Optional chaining v?.k: short-circuits to undefined on null/undefined. -/
def optChain (v : JVal) (k : String) : JVal :=
  match v with
  | .undefined => .undefined
  | .null => .undefined
  | _ => getFieldJS v k

/-- Chained optional access v?.k1?.k2..., as in root?.props?.pageProps?... . -/
def optChainPath (v : JVal) (ks : List String) : JVal :=
  ks.foldl optChain v

/-- JavaScript a || b. -/
def jsOr (a b : JVal) : JVal :=
  if a.truthy then a else b

/-- JavaScript a ?? b (nullish coalescing). -/
def nullish (a b : JVal) : JVal :=
  match a with
  | .undefined => b
  | .null => b
  | _ => a

mutual

/-- JavaScript String(v) conversion. -/
def jsToString : JVal → String
  | .undefined => "undefined"
  | .null => "null"
  | .bool b => if b then "true" else "false"
  | .num n => toString n
  | .str s => s
  | .obj _ => "[object Object]"
  | .arr es => jsArrToString es
termination_by structural v => v

/-- Array toString: elements joined with commas, null and undefined elements
rendered as the empty string. -/
def jsArrToString : JArr → String
  | .nil => ""
  | .cons v .nil =>
    match v with
    | .undefined => ""
    | .null => ""
    | w => jsToString w
  | .cons v rest =>
    (match v with
     | .undefined => ""
     | .null => ""
     | w => jsToString w) ++ "," ++ jsArrToString rest
termination_by structural a => a

end

/- ===================== string helpers ===================== -/

/-- ASCII lowering of a string, modelling toLowerCase on the inputs considered. -/
def lowerStr (s : String) : String :=
  String.mk (s.toList.map Char.toLower)

/-- Remove leading and trailing whitespace, modelling String.prototype.trim. -/
def trimStr (s : String) : String :=
  String.mk (((s.toList.dropWhile Char.isWhitespace).reverse.dropWhile Char.isWhitespace).reverse)

/-- toLowerCase().trim() composition used throughout the source. -/
def lowerTrim (s : String) : String :=
  trimStr (lowerStr s)

/-- Split a character list at a separator character (String.prototype.split
with a one-character separator; the empty string splits to [""]). -/
def splitOnCharList (sep : Char) (l : List Char) : List (List Char) :=
  l.foldr
    (fun c acc =>
      if c = sep then [] :: acc
      else
        match acc with
        | h :: t => (c :: h) :: t
        | [] => [[c]])
    [[]]

/-- String.prototype.split with a one-character separator. -/
def splitOnStr (sep : Char) (s : String) : List String :=
  (splitOnCharList sep s.toList).map String.mk

/-- Does pat occur as a contiguous sublist of l? -/
def containsList (l pat : List Char) : Bool :=
  match l with
  | [] => pat.isEmpty
  | _ :: cs => pat.isPrefixOf l || containsList cs pat

/-- String.prototype.includes: substring containment (always true for ""). -/
def strContains (s pat : String) : Bool :=
  containsList s.toList pat.toList

/-- String.prototype.startsWith. -/
def startsWithStr (s pat : String) : Bool :=
  pat.toList.isPrefixOf s.toList

/-- A JavaScript word character \w = [A-Za-z0-9_]. -/
def isWordChar (c : Char) : Bool :=
  c.isAlphanum || c == '_'

/-- The norm helper of the source: String(s || "").toLowerCase()
.replace(non-word characters by nothing).trim(), over a raw value. -/
def normJ (v : JVal) : String :=
  trimStr (String.mk ((lowerStr (jsToString (jsOr v (.str "")))).toList.filter isWordChar))

/-- norm applied to a plain string argument. -/
def normS (s : String) : String :=
  normJ (.str s)

/-- A string-or-absent request value read as JavaScript (x || "") does. -/
def strOrEmpty (o : Option String) : String :=
  match o with
  | some s => s
  | none => ""

/-- Truthiness of a string-or-absent request field. -/
def truthyS (o : Option String) : Bool :=
  match o with
  | some s => s != ""
  | none => false

/- ===================== AddressNormalizer ===================== -/

/-- Case-insensitive literal prefix test for the replace scanner. -/
def ciStartsWith (pat l : List Char) : Bool :=
  (pat.map Char.toLower).isPrefixOf (l.map Char.toLower)

/-- Scanner for String.prototype.replace with a global case-insensitive
literal pattern: leftmost matches, non-overlapping, resuming after each
replacement.  The fuel argument (instantiated with the input length) bounds
the recursion; each step consumes at least one character, so the bound is
never reached with a non-empty pattern. -/
def replaceScan (pat repl : List Char) : Nat → List Char → List Char
  | 0, l => l
  | _ + 1, [] => []
  | fuel + 1, c :: cs =>
    if pat ≠ [] && ciStartsWith pat (c :: cs) then
      repl ++ replaceScan pat repl fuel ((c :: cs).drop pat.length)
    else
      c :: replaceScan pat repl fuel cs

/-- s.replace(new RegExp(k, "gi"), v) for the literal table keys of the source. -/
def replaceAllCI (s pat repl : String) : String :=
  String.mk (replaceScan pat.toList repl.toList s.toList.length s.toList)

/-- The abbreviation-to-full-word table, in the source's insertion order. -/
def abbrToFull : List (String × String) :=
  [(" St ", " Street "), (" Dr ", " Drive "), (" Rd ", " Road "),
   (" Ave ", " Avenue "), (" Ln ", " Lane "), (" Ct ", " Court "),
   (" Blvd ", " Boulevard "), (" Pkwy ", " Parkway "),
   (" Ter ", " Terrace "), (" Cir ", " Circle ")]

/-- The full-word-to-abbreviation table, in the source's insertion order. -/
def fullToAbbr : List (String × String) :=
  [(" Street ", " St "), (" Drive ", " Dr "), (" Road ", " Rd "),
   (" Avenue ", " Ave "), (" Lane ", " Ln "), (" Court ", " Ct "),
   (" Boulevard ", " Blvd "), (" Parkway ", " Pkwy "),
   (" Terrace ", " Ter "), (" Circle ", " Cir ")]

/-- swapWords of the source: pad with boundary spaces, apply every table
substitution in order, trim. -/
def swapWords (s : String) (table : List (String × String)) : String :=
  trimStr (table.foldl (fun t kv => replaceAllCI t kv.1 kv.2) (" " ++ s ++ " "))

/-- Maximal word-character runs of a character list (used to decide
whole-word regex matches). -/
def wordRuns : List Char → List (List Char)
  | [] => []
  | c :: cs =>
    if isWordChar c then
      match wordRuns cs with
      | [] => [[c]]
      | r :: rs =>
        match cs with
        | c2 :: _ => if isWordChar c2 then (c :: r) :: rs else [c] :: r :: rs
        | [] => [[c]]
    else wordRuns cs

/-- The test of the directional regex of the source.  A case-insensitive
whole-word alternation of word-character tokens matches exactly when some
maximal word run equals one of the tokens, which is what we compute. -/
def hasDirectional (s : String) : Bool :=
  (wordRuns s.toList).any
    (fun run => ["n", "s", "e", "w", "ne", "nw", "se", "sw"].contains
      (String.mk (run.map Char.toLower)))

/-- The house-number match of the source: digits, then whitespace, then the
rest of the line.  The dot of the regex cannot cross a line terminator and
the anchor is the true end of input, so a line terminator in the remainder
defeats the match. -/
def houseNumberSplit (s : String) : Option (String × String) :=
  let ds := s.toList.takeWhile Char.isDigit
  let afterDigits := s.toList.dropWhile Char.isDigit
  let ws := afterDigits.takeWhile Char.isWhitespace
  let rest := afterDigits.dropWhile Char.isWhitespace
  if ds ≠ [] && ws ≠ [] &&
      rest.all (fun c => !(c == '\n' || c == '\r' || c == ' ' || c == ' ')) then
    some (String.mk ds, String.mk rest)
  else none

/-- Insertion-ordered set add (the JavaScript Set of the source). -/
def addUnique (l : List String) (s : String) : List String :=
  if l.contains s then l else l ++ [s]

/-- generateAddressVariants of the source: the trimmed input, the two
substitution passes, and, when no directional token is present and the
address starts with a house number, one variant per directional token
inserted after the number; deduplicated in insertion order, empty strings
dropped. -/
def generateAddressVariants (address : String) : List String :=
  let base := trimStr address
  if base = "" then []
  else
    let variants := addUnique [] base
    let variants := addUnique variants (swapWords base abbrToFull)
    let variants := addUnique variants (swapWords base fullToAbbr)
    let variants :=
      if !hasDirectional base then
        match houseNumberSplit base with
        | some (num, rest) =>
          ["E", "W", "N", "S"].foldl
            (fun vs d => addUnique vs (num ++ " " ++ d ++ " " ++ rest)) variants
        | none => variants
      else variants
    variants.filter (fun v => v != "")

/- ===================== PathExtractor ===================== -/

/-- Walk one dotted path: p.split(".").reduce((o, k) => (o ? o[k] : undefined), obj). -/
def walkPath (obj : JVal) (p : String) : JVal :=
  (splitOnStr '.' p).foldl (fun o k => if o.truthy then getFieldJS o k else .undefined) obj

/-- tryPaths of the source: first path whose full walk yields a value that is
neither undefined nor null; undefined when every path fails. -/
def tryPaths (obj : JVal) : List String → JVal
  | [] => .undefined
  | p :: rest =>
    let v := walkPath obj p
    if !v.isNullish then v else tryPaths obj rest

/-- pick of sendExpanded: same ordered walk, but null when every path fails. -/
def pickPaths (obj : JVal) : List String → JVal
  | [] => .null
  | p :: rest =>
    let v := walkPath obj p
    if !v.isNullish then v else pickPaths obj rest

/- ===================== CandidateScorer: fuzzy mode ===================== -/

/-- The normalized address string of one search result: norm(r?.address || ""). -/
def candAddrText (r : JVal) : String :=
  normJ (jsOr (optChain r "address") (.str ""))

/-- The score the loop of pickBestSearchResult computes for one result:
2 when the normalized address contains the target address, plus 1 when it
contains the target city. -/
def scoreResult (targetAddr targetCity : String) (r : JVal) : Int :=
  (if strContains (candAddrText r) targetAddr then 2 else 0) +
  (if strContains (candAddrText r) targetCity then 1 else 0)

/-- The selection loop of pickBestSearchResult: update best and bestScore on
a strictly greater score. -/
def pickLoop (targetAddr targetCity : String) :
    List JVal → Option JVal × Int → Option JVal × Int
  | [], acc => acc
  | r :: rest, acc =>
    let score := scoreResult targetAddr targetCity r
    pickLoop targetAddr targetCity rest (if score > acc.2 then (some r, score) else acc)

/-- pickBestSearchResult of the source: best result and best score, starting
from (null, -1). -/
def pickBestSearchResult (results : List JVal) (address city : String) :
    Option JVal × Int :=
  pickLoop (normS address) (normS city) results (none, -1)

/- ===================== CandidateScorer: strict mode ===================== -/

/-- The normalized query of rapidApiLookupStrict (its want record). -/
structure Want where
  city : String
  state : String
  zip : String

/-- want = lowercased trimmed city and state, trimmed zip string. -/
def mkWant (city state zip : Option String) : Want :=
  { city := lowerTrim (strOrEmpty city)
    state := lowerTrim (strOrEmpty state)
    zip := trimStr (jsToString (jsOr (.str (strOrEmpty zip)) (.str ""))) }

/-- The raw city expression: data?.address?.city || data?.city || "". -/
def gotCityVal (data : JVal) : JVal :=
  jsOr (jsOr (optChain (optChain data "address") "city") (optChain data "city")) (.str "")

/-- The raw state expression: data?.address?.state || data?.state || "". -/
def gotStateVal (data : JVal) : JVal :=
  jsOr (jsOr (optChain (optChain data "address") "state") (optChain data "state")) (.str "")

/-- The raw zip expression: data?.address?.zipcode || data?.zipcode || "". -/
def gotZipVal (data : JVal) : JVal :=
  jsOr (jsOr (optChain (optChain data "address") "zipcode") (optChain data "zipcode")) (.str "")

/-- v.toLowerCase().trim() on a raw value: defined for strings only; on any
other value the source raises a TypeError, which the per-attempt catch turns
into a skipped attempt, so the caller treats none as not accepted. -/
def jvalLowerTrim (v : JVal) : Option String :=
  match v with
  | .str s => some (lowerTrim s)
  | _ => none

/-- data?.zestimate ?? data?.result?.zestimate ?? data?.data?.zestimate ?? null. -/
def apiZestimate (data : JVal) : JVal :=
  nullish (nullish (nullish (optChain data "zestimate")
    (optChain (optChain data "result") "zestimate"))
    (optChain (optChain data "data") "zestimate")) .null

/-- data?.zpid ?? data?.result?.zpid ?? data?.data?.zpid ?? null. -/
def apiZpid (data : JVal) : JVal :=
  nullish (nullish (nullish (optChain data "zpid")
    (optChain (optChain data "result") "zpid"))
    (optChain (optChain data "data") "zpid")) .null

/-- data?.url ?? data?.result?.url ?? data?.data?.url ?? null, absolutized
against the Zillow origin when relative. -/
def apiPropertyUrl (data : JVal) : JVal :=
  let rawUrl := nullish (nullish (nullish (optChain data "url")
    (optChain (optChain data "result") "url"))
    (optChain (optChain data "data") "url")) .null
  if rawUrl.truthy then
    if startsWithStr (jsToString rawUrl) "http" then rawUrl
    else .str ("https://www.zillow.com" ++ jsToString rawUrl)
  else .null

/-- The strict acceptance check of rapidApiLookupStrict: normalized city and
state equality, zip equality unless the query zip is empty, and a truthy
zestimate or zpid. -/
def acceptApiCandidate (want : Want) (data : JVal) : Bool :=
  match jvalLowerTrim (gotCityVal data), jvalLowerTrim (gotStateVal data) with
  | some gotCity, some gotState =>
    let gotZip := trimStr (jsToString (gotZipVal data))
    (gotCity == want.city) && (gotState == want.state) &&
      ((want.zip == "") || (gotZip == want.zip)) &&
      ((apiZestimate data).truthy || (apiZpid data).truthy)
  | _, _ => false

/- ===================== SourceQuery / attempt enumeration ===================== -/

/-- The endpoint paths of the candidates table, in its fixed priority order.
Each table entry also carries a query-parameter builder; the builders feed
only the request URL handed to the out-of-scope HTTP transport (spec section
6), so the ApiFetch oracle below is keyed by address variant and table
position instead of by URL. -/
def candidateShapes : List String :=
  ["/property", "/propertyExtended", "/propertyByAddress", "/property", "/propertyDetails"]

/-- All (variant, shape) pairs in enumeration order: the nested loops of the
source visit every shape of a variant before advancing to the next variant. -/
def attemptPairs (vs : List String) (ss : List Nat) : List (String × Nat) :=
  vs.flatMap (fun v => ss.map (fun s => (v, s)))

/-- An accepted candidate of the strict lookup, with its extracted fields. -/
structure ApiHit where
  tried : String
  zestimate : JVal
  zpid : JVal
  property_url : JVal
  data : JVal

/-- Result of rapidApiLookupStrict: an accepted hit or a miss with a reason. -/
inductive ApiLookupResult where
  | miss (reason : String)
  | hit (h : ApiHit)

/-- Did the lookup accept a candidate? -/
def isHit : ApiLookupResult → Bool
  | .hit _ => true
  | .miss _ => false

/-- The environment of one request: configuration flags and the two external
capabilities (ApiFetch and DocumentFetch) of spec section 6. -/
structure Env where
  authOk : Bool
  preferApiFirst : Bool
  hasRapidKeys : Bool
  apiFetch : String → Nat → Option JVal
  launchCrash : Option String
  searchBlob : Option (Option JVal)
  detailCrash : Option String
  detailBlob : Option (Option JVal)
  detailExtract : Option Int × Option Int

/-- One enumeration attempt: fetch the variant against the shape, accept or
skip.  none covers a transport error, a non-success status, an unparseable
body (all continue the enumeration) and a rejected candidate. -/
def attemptResult (env : Env) (want : Want) (p : String × Nat) : Option ApiHit :=
  match env.apiFetch p.1 p.2 with
  | none => none
  | some data =>
    if acceptApiCandidate want data then
      some { tried := candidateShapes.getD p.2 "" ++ " | addr=\"" ++ p.1 ++ "\""
             zestimate := apiZestimate data
             zpid := apiZpid data
             property_url := apiPropertyUrl data
             data := data }
    else none

/-- rapidApiLookupStrict of the source: generate the address variants, then
try every (variant, shape) pair in enumeration order and return at the first
accepted candidate. -/
def rapidApiLookupStrict (env : Env) (address city state zip : Option String) :
    ApiLookupResult :=
  if !env.hasRapidKeys then .miss "missing-keys"
  else
    let want := mkWant city state zip
    let addrs := generateAddressVariants (strOrEmpty address)
    match (attemptPairs addrs (List.range candidateShapes.length)).findSome?
        (attemptResult env want) with
    | some h => .hit h
    | none => .miss "no-matching-record"

/- ===================== responses and the route handler ===================== -/

/-- The request body fields the route destructures. -/
structure ReqBody where
  address : Option String
  city : Option String
  state : Option String
  zip : Option String

/-- Projection of a JSON response to the fields the verified claims inspect
(status code, ok, error, the canonical identifiers and valuation, the match
confidence and the note); the remaining canonical-record fields of the
source payloads are never read by a claim. -/
structure Resp where
  status : Nat
  ok : Bool
  error : Option String
  zestimate : JVal
  zpid : JVal
  property_url : JVal
  match_confidence : Option Int
  note : Option String

/-- The 401 response of checkApiKey. -/
def unauthorizedResp : Resp :=
  { status := 401, ok := false, error := some "Unauthorized"
    zestimate := .undefined, zpid := .undefined, property_url := .undefined
    match_confidence := none, note := none }

/-- The 400 response of the required-fields check. -/
def badRequestResp : Resp :=
  { status := 400, ok := false, error := some "address, city, state are required"
    zestimate := .undefined, zpid := .undefined, property_url := .undefined
    match_confidence := none, note := none }

/-- The response of the route-level catch: status 200 with ok false. -/
def errorResp (msg : String) : Resp :=
  { status := 200, ok := false, error := some msg
    zestimate := .undefined, zpid := .undefined, property_url := .undefined
    match_confidence := none, note := none }

/-- The empty successful result used on every exhausted path: null record,
confidence 0 and an explanatory note. -/
def emptyResp (note : String) : Resp :=
  { status := 200, ok := true, error := none
    zestimate := .null, zpid := .null, property_url := .null
    match_confidence := some 0, note := some note }

/-- A number-or-null as a JSON value. -/
def optIntToJVal : Option Int → JVal
  | some n => .num n
  | none => .null

/-- Truthiness of a number-or-null. -/
def optIntTruthy : Option Int → Bool
  | some n => n != 0
  | none => false

/-- JavaScript (n || 0) over an integer. -/
def jsNumOr (n fallback : Int) : Int :=
  if n != 0 then n else fallback

/-- The successful document-path response: confidence 90 with a truthy
zestimate, otherwise max(20, (score || 0) * 10). -/
def docSuccessResp (detailUrl : String) (zpid zestimate : Option Int) (score : Int) :
    Resp :=
  { status := 200, ok := true, error := none
    property_url := .str detailUrl
    zpid := optIntToJVal zpid
    zestimate := optIntToJVal zestimate
    match_confidence :=
      some (if optIntTruthy zestimate then 90 else max 20 (jsNumOr score 0 * 10))
    note := none }

/-- The zestimate of the expanded API response:
out.zestimate ?? (pick("zestimate") ?? pick("result.zestimate") ?? pick("data.zestimate")). -/
def sendExpandedZestimate (out : ApiHit) : JVal :=
  nullish out.zestimate
    (nullish (nullish (pickPaths out.data ["zestimate"])
      (pickPaths out.data ["result.zestimate"]))
      (pickPaths out.data ["data.zestimate"]))

/-- sendExpanded of the source, projected to the claim-relevant fields:
status 200, ok true, the extracted identifiers, and confidence 85 with a
truthy zestimate, 60 otherwise. -/
def sendExpanded (out : ApiHit) : Resp :=
  let zestimate := sendExpandedZestimate out
  { status := 200, ok := true, error := none
    property_url := out.property_url
    zpid := nullish out.zpid (pickPaths out.data ["zpid", "result.zpid", "data.zpid"])
    zestimate := zestimate
    match_confidence := some (if zestimate.truthy then 85 else 60)
    note := none }

/-- The listResults value the route computes from the parsed search blob:
the modern path first, then the legacy store paths when the first is not an
array (re-parsing the same blob text yields the same parse result). -/
def docListResults (env : Env) : JVal :=
  match env.searchBlob with
  | none => .undefined
  | some parsed =>
    let root : JVal :=
      match parsed with
      | some j => j
      | none => .null
    let lr0 := optChainPath root
      ["props", "pageProps", "searchPageState", "cat1", "searchResults", "listResults"]
    if !lr0.isArr then
      match parsed with
      | some store =>
        jsOr (jsOr (optChainPath store ["cat1", "searchResults", "listResults"])
          (optChainPath store ["searchResults", "listResults"])) .null
      | none => lr0
    else lr0

/-- The Playwright branch of the route: document fetch, result selection,
detail fetch and extraction; every infrastructure failure is caught and
returned as ok false, every exhausted path as an empty successful result. -/
def scrapeFlow (env : Env) (body : ReqBody) : Resp :=
  match env.launchCrash with
  | some msg => errorResp msg
  | none =>
    match env.searchBlob with
    | none =>
      if env.hasRapidKeys then
        match rapidApiLookupStrict env body.address body.city body.state body.zip with
        | .hit h => sendExpanded h
        | .miss _ => emptyResp "No matching record from RapidAPI for the requested city/ZIP."
      else emptyResp "No search data blob found."
    | some _ =>
      match docListResults env with
      | .arr es =>
        let elems := es.toList
        if elems.isEmpty then emptyResp "No search results in blob."
        else
          let picked := pickBestSearchResult elems (strOrEmpty body.address) (strOrEmpty body.city)
          match picked.1 with
          | none => emptyResp "No matching property found."
          | some b =>
            let du := optChain b "detailUrl"
            if !du.truthy then emptyResp "No matching property found."
            else
              match du with
              | .str u =>
                let detailUrl :=
                  if startsWithStr u "http" then u else "https://www.zillow.com" ++ u
                match env.detailCrash with
                | some msg => errorResp msg
                | none =>
                  let zz :=
                    match env.detailBlob with
                    | some (some _) => env.detailExtract
                    | _ => ((none : Option Int), (none : Option Int))
                  docSuccessResp detailUrl zz.1 zz.2 picked.2
              | _ => errorResp "best.detailUrl.startsWith is not a function"
      | _ => emptyResp "No search results in blob."

/-- The POST /zestimate route: auth gate, required-fields check, optional
API-first lookup, then the Playwright branch. -/
def zestimateHandler (env : Env) (body : ReqBody) : Resp :=
  if !env.authOk then unauthorizedResp
  else if !truthyS body.address || !truthyS body.city || !truthyS body.state then
    badRequestResp
  else if env.preferApiFirst && env.hasRapidKeys then
    match rapidApiLookupStrict env body.address body.city body.state body.zip with
    | .hit h => sendExpanded h
    | .miss _ => scrapeFlow env body
  else scrapeFlow env body

/- ===================== spec-side predicate for claim C1 ===================== -/

/-- Modelled from the spec: the normalization the claim prescribes for strict
comparisons, lowercase with all non-alphanumeric characters stripped, then
trimmed. -/
def specClaimNorm (s : String) : String :=
  trimStr (String.mk ((lowerStr s).toList.filter Char.isAlphanum))

/-- Modelled from the spec: the strict-mode acceptability predicate exactly
as claim C1 words it, over the candidate's city, state, zip and the presence
of a valuation or identifier. -/
def claimAcceptable (qCity qState qZip candCity candState candZip : String)
    (hasValuation hasIdentifier : Bool) : Bool :=
  (specClaimNorm candCity == specClaimNorm qCity) &&
  (specClaimNorm candState == specClaimNorm qState) &&
  ((trimStr qZip == "") || (specClaimNorm candZip == specClaimNorm qZip)) &&
  (hasValuation || hasIdentifier)

/-- A top-level API candidate record with the given city, state, zipcode and
optional zestimate and zpid fields. -/
def mkTopCandidate (city state zipcode : String) (ze zp : Option Int) : JVal :=
  .obj (objOf ([("city", .str city), ("state", .str state), ("zipcode", .str zipcode)] ++
    (match ze with
     | some n => [("zestimate", JVal.num n)]
     | none => []) ++
    (match zp with
     | some n => [("zpid", JVal.num n)]
     | none => [])))

/- ===================== auxiliary definitions for the claims ===================== -/

/-- A minimal deterministic environment: authorized, no API keys, no
document blob, no crashes. -/
def probeEnv : Env :=
  { authOk := true, preferApiFirst := false, hasRapidKeys := false
    apiFetch := fun _ _ => none, launchCrash := none, searchBlob := none
    detailCrash := none, detailBlob := none, detailExtract := (none, none) }

/-- The acceptable payload used by the oracle of the C3 witness. -/
def hitData : JVal := mkTopCandidate "Springfield" "IL" "62704" (some 250000) none

/-- An environment whose ApiFetch accepts only the original variant against
the first shape. -/
def hitEnv : Env :=
  { probeEnv with
      hasRapidKeys := true
      apiFetch := fun a i =>
        if a == "123 Main St" && i == 0 then some hitData else none }

/-- The hit the first attempt of the C3 witness produces. -/
def hitH : ApiHit :=
  { tried := "/property | addr=\"123 Main St\""
    zestimate := .num 250000, zpid := .null, property_url := .null, data := hitData }

/-- An accepted hit without any valuation in its payload. -/
def noValHit : ApiHit :=
  { tried := "/property | addr=\"9 Oak St\"", zestimate := .null, zpid := .num 42
    property_url := .null, data := .obj .nil }

/-- The document path is exhausted without a candidate: no blob, no result
array, an empty result array, or a selected result without a truthy
detailUrl. -/
def docNoMatch (env : Env) (body : ReqBody) : Bool :=
  match env.searchBlob with
  | none => true
  | some _ =>
    match docListResults env with
    | .arr es =>
      let elems := es.toList
      if elems.isEmpty then true
      else
        match (pickBestSearchResult elems (strOrEmpty body.address)
            (strOrEmpty body.city)).1 with
        | none => true
        | some b => !(optChain b "detailUrl").truthy
    | _ => true

/- ===================== helper lemmas and claim theorems ===================== -/

lemma jsOr_undefined (b : JVal) : jsOr .undefined b = b := rfl

lemma jsOr_str_fallback_empty (s : String) : jsOr (.str s) (.str "") = .str s := by
  unfold jsOr JVal.truthy
  by_cases h : s = ""
  · subst h; simp
  · simp [bne, h]

lemma strContains_empty_pat (s : String) : strContains s "" = true := by
  unfold strContains containsList
  cases s.toList <;> simp [List.isPrefixOf]

/-- First-success characterization of findSome? -/
lemma findSome?_of_first {α β : Type} (f : α → Option β) :
    ∀ (l : List α) (i : Nat) (a : α) (b : β),
      l[i]? = some a → f a = some b →
      (∀ j q, j < i → l[j]? = some q → f q = none) →
      l.findSome? f = some b := by
  intro l
  induction l with
  | nil => intro i a b h; simp at h
  | cons x xs ih =>
    intro i a b hget hfa hnone
    cases i with
    | zero =>
      simp at hget
      subst hget
      simp [List.findSome?, hfa]
    | succ n =>
      have hx : f x = none := hnone 0 x (Nat.succ_pos n) (by simp)
      simp at hget
      have := ih n a b hget hfa (fun j q hj hq => hnone (j + 1) q (Nat.succ_lt_succ hj) (by simpa using hq))
      simp [List.findSome?, hx, this]

/- ===================== C1 ===================== -/

/-- C1, counterexample: the claim accepts the candidate city St Louis for the
query city St. Louis (both normalize to stlouis once non-alphanumerics are
stripped), but the strict check of the source compares lowercased trimmed
strings without stripping and rejects it. -/
theorem claim_C1_counterexample :
    claimAcceptable "St. Louis" "MO" "" "St Louis" "MO" "" true false = true ∧
    acceptApiCandidate (mkWant (some "St. Louis") (some "MO") (some ""))
      (mkTopCandidate "St Louis" "MO" "" (some 500000) none) = false := by
  constructor
  · decide
  · decide

/-- C1, amended: a candidate is accepted iff its city and state equal the
query city and state after lowercasing and trimming only (non-alphanumeric
characters are not stripped), the query zip is empty or the trimmed candidate
zip equals the trimmed query zip, and a truthy zestimate or zpid is present;
in particular the austin/tx candidate is accepted for Austin/TX with an
empty query zip. -/
theorem claim_C1_amended :
    (∀ (qc qs qz cc cs cz : String) (ze zp : Option Int),
      acceptApiCandidate (mkWant (some qc) (some qs) (some qz))
        (mkTopCandidate cc cs cz ze zp) =
      ((lowerTrim cc == lowerTrim qc) && (lowerTrim cs == lowerTrim qs) &&
        ((trimStr qz == "") || (trimStr cz == trimStr qz)) &&
        (optIntTruthy ze || optIntTruthy zp))) ∧
    acceptApiCandidate (mkWant (some "Austin") (some "TX") none)
      (mkTopCandidate "austin" "tx" "" (some 420000) none) = true := by
  constructor
  · intro qc qs qz cc cs cz ze zp
    cases ze <;> cases zp <;>
      simp only [acceptApiCandidate, mkWant, mkTopCandidate, objOf, strOrEmpty,
        gotCityVal, gotStateVal, gotZipVal, optChain, getFieldJS, JObj.find,
        apiZestimate, apiZpid, nullish, jsOr_undefined, jsOr_str_fallback_empty,
        jvalLowerTrim, jsToString, JVal.truthy, optIntTruthy, List.append_eq,
        List.cons_append, List.nil_append] <;>
      simp [jsOr_undefined, jsOr_str_fallback_empty, jsToString, JObj.find]
  · decide

/- ===================== C5 ===================== -/

/-- tryPaths returns the walk of the first path whose walk is not nullish. -/
lemma tryPaths_first (obj : JVal) :
    ∀ (paths : List String) (i : Nat) (p : String),
      paths[i]? = some p → (walkPath obj p).isNullish = false →
      (∀ j q, j < i → paths[j]? = some q → (walkPath obj q).isNullish = true) →
      tryPaths obj paths = walkPath obj p := by
  intro paths
  induction paths with
  | nil => intro i p h; simp at h
  | cons a rest ih =>
    intro i p hget hgood hbad
    cases i with
    | zero =>
      simp at hget
      subst hget
      simp [tryPaths, hgood]
    | succ n =>
      have ha : (walkPath obj a).isNullish = true := hbad 0 a (Nat.succ_pos n) (by simp)
      simp at hget
      have := ih n p hget hgood
        (fun j q hj hq => hbad (j + 1) q (Nat.succ_lt_succ hj) (by simpa using hq))
      simp [tryPaths, ha, this]

/-- pickPaths is tryPaths with undefined mapped to null at exhaustion. -/
lemma pickPaths_eq_tryPaths (obj : JVal) :
    ∀ paths : List String,
      pickPaths obj paths =
        if (tryPaths obj paths).isNullish then JVal.null else tryPaths obj paths := by
  intro paths
  induction paths with
  | nil => simp [pickPaths, tryPaths, JVal.isNullish]
  | cons a rest ih =>
    by_cases h : (walkPath obj a).isNullish
    · simp [pickPaths, tryPaths, h, ih]
    · simp [pickPaths, tryPaths, h]

/-- C5: paths are evaluated strictly in order and the first path whose full
walk yields a non-null, non-undefined terminal value wins (a missing
intermediate segment makes the walk undefined, so the path fails); against
a record with only c the later path c wins with 5, and with a.b present the
earlier path wins with 7; pick of sendExpanded is the same lookup with null
at exhaustion. -/
theorem claim_C5 :
    (∀ (obj : JVal) (paths : List String) (i : Nat) (p : String),
      paths[i]? = some p → (walkPath obj p).isNullish = false →
      (∀ j q, j < i → paths[j]? = some q → (walkPath obj q).isNullish = true) →
      tryPaths obj paths = walkPath obj p) ∧
    tryPaths (.obj (objOf [("c", .num 5)])) ["a.b", "c"] = .num 5 ∧
    tryPaths (.obj (objOf [("a", .obj (objOf [("b", .num 7)])), ("c", .num 5)]))
      ["a.b", "c"] = .num 7 ∧
    (∀ (obj : JVal) (paths : List String),
      pickPaths obj paths =
        if (tryPaths obj paths).isNullish then JVal.null else tryPaths obj paths) := by
  refine ⟨tryPaths_first, ?_, ?_, fun obj paths => pickPaths_eq_tryPaths obj paths⟩
  · rfl
  · rfl

/-- C5 witness: the first-hit lemma applied to the record with only c, where
the path a.b fails (index 1 is the first non-nullish walk), and pick applied
to the same configuration. -/
theorem claim_C5_witness :
    tryPaths (.obj (objOf [("c", .num 5)])) ["a.b", "c"] =
      walkPath (.obj (objOf [("c", .num 5)])) "c" := by
  refine claim_C5.1 (.obj (objOf [("c", .num 5)])) ["a.b", "c"] 1 "c" (by simp) (by decide) ?_
  intro j q hj hq
  interval_cases j
  · simp at hq
    subst hq
    decide

/- ===================== addUnique lemmas (C4, C9) ===================== -/

lemma mem_addUnique_self (l : List String) (s : String) : s ∈ addUnique l s := by
  unfold addUnique
  split
  · next hc => exact List.mem_of_elem_eq_true hc
  · exact List.mem_append_right _ (List.mem_singleton.mpr rfl)

lemma mem_addUnique_of_mem {a : String} {l : List String} (s : String) (h : a ∈ l) :
    a ∈ addUnique l s := by
  unfold addUnique
  split
  · exact h
  · exact List.mem_append_left _ h

lemma mem_addUnique_elim {a : String} {l : List String} {s : String}
    (h : a ∈ addUnique l s) : a ∈ l ∨ a = s := by
  unfold addUnique at h
  split at h
  · exact Or.inl h
  · rcases List.mem_append.mp h with h1 | h1
    · exact Or.inl h1
    · exact Or.inr (List.mem_singleton.mp h1)

lemma addUnique_nodup {l : List String} (h : l.Nodup) (s : String) :
    (addUnique l s).Nodup := by
  unfold addUnique
  split
  · exact h
  · next hc =>
    refine List.Nodup.append h (List.nodup_singleton s) ?_
    intro x hx hs
    rw [List.mem_singleton.mp hs] at hx
    exact hc (List.elem_eq_true_of_mem hx)

lemma addUnique_cons_shape (b : String) (t : List String) (s : String) :
    ∃ t2, addUnique (b :: t) s = b :: t2 := by
  unfold addUnique
  split
  · exact ⟨t, rfl⟩
  · exact ⟨t ++ [s], rfl⟩

lemma foldl_addUnique_shape (b : String) (g : String → String) :
    ∀ (ds : List String) (t : List String),
      ∃ t2, ds.foldl (fun vs d => addUnique vs (g d)) (b :: t) = b :: t2 := by
  intro ds
  induction ds with
  | nil => intro t; exact ⟨t, rfl⟩
  | cons d rest ih =>
    intro t
    obtain ⟨t1, h1⟩ := addUnique_cons_shape b t (g d)
    simpa [List.foldl_cons, h1] using ih t1

lemma foldl_addUnique_nodup (g : String → String) :
    ∀ (ds : List String) (l : List String), l.Nodup →
      (ds.foldl (fun vs d => addUnique vs (g d)) l).Nodup := by
  intro ds
  induction ds with
  | nil => intro l h; exact h
  | cons d rest ih =>
    intro l h
    exact ih _ (addUnique_nodup h (g d))

lemma foldl_addUnique_mem_of_mem {a : String} (g : String → String) :
    ∀ (ds : List String) (l : List String), a ∈ l →
      a ∈ ds.foldl (fun vs d => addUnique vs (g d)) l := by
  intro ds
  induction ds with
  | nil => intro l h; exact h
  | cons d rest ih =>
    intro l h
    exact ih _ (mem_addUnique_of_mem (g d) h)

lemma foldl_addUnique_mem_insert (g : String → String) :
    ∀ (ds : List String) (l : List String) (d : String), d ∈ ds →
      g d ∈ ds.foldl (fun vs d => addUnique vs (g d)) l := by
  intro ds
  induction ds with
  | nil => intro l d h; simp at h
  | cons d0 rest ih =>
    intro l d h
    rcases List.mem_cons.mp h with h1 | h1
    · subst h1
      exact foldl_addUnique_mem_of_mem g rest _ (mem_addUnique_self l (g d))
    · exact ih _ d h1

lemma foldl_addUnique_elim {a : String} (g : String → String) :
    ∀ (ds : List String) (l : List String),
      a ∈ ds.foldl (fun vs d => addUnique vs (g d)) l →
      a ∈ l ∨ ∃ d ∈ ds, a = g d := by
  intro ds
  induction ds with
  | nil => intro l h; exact Or.inl h
  | cons d0 rest ih =>
    intro l h
    rcases ih _ h with h1 | h1
    · rcases mem_addUnique_elim h1 with h2 | h2
      · exact Or.inl h2
      · exact Or.inr ⟨d0, List.mem_cons_self d0 rest, h2⟩
    · obtain ⟨d, hd, he⟩ := h1
      exact Or.inr ⟨d, List.mem_cons_of_mem d0 hd, he⟩

/- ===================== C4 ===================== -/

/-- The variant list before filtering is the trimmed base followed by later
insertions, and has no duplicates. -/
lemma gen_core_shape (address : String) (h : ¬ trimStr address = "") :
    ∃ t, generateAddressVariants address =
        List.filter (fun v => v != "") (trimStr address :: t) ∧
      (trimStr address :: t).Nodup := by
  unfold generateAddressVariants
  rw [if_neg h]
  have e1 : addUnique [] (trimStr address) = [trimStr address] := rfl
  obtain ⟨t1, e2⟩ := addUnique_cons_shape (trimStr address) []
    (swapWords (trimStr address) abbrToFull)
  obtain ⟨t2, e3⟩ := addUnique_cons_shape (trimStr address) t1
    (swapWords (trimStr address) fullToAbbr)
  have n1 : ([trimStr address] : List String).Nodup := List.nodup_singleton _
  have n2 : (trimStr address :: t1).Nodup := by
    rw [← e2]; exact addUnique_nodup n1 _
  have n3 : (trimStr address :: t2).Nodup := by
    rw [← e3]; exact addUnique_nodup n2 _
  simp only [e1, e2, e3]
  by_cases hd : hasDirectional (trimStr address)
  · refine ⟨t2, ?_, n3⟩
    simp [hd]
  · cases hhn : houseNumberSplit (trimStr address) with
    | none => refine ⟨t2, ?_, n3⟩; simp [hd, hhn]
    | some nr =>
      obtain ⟨t3, e4⟩ := foldl_addUnique_shape (trimStr address)
        (fun d => nr.1 ++ " " ++ d ++ " " ++ nr.2) ["E", "W", "N", "S"] t2
      refine ⟨t3, ?_, ?_⟩
      · simp only [hd, hhn, Bool.not_true, Bool.not_false, if_true]
        rw [e4]
      · rw [← e4]
        exact foldl_addUnique_nodup _ _ _ n3

/-- C4: a non-empty address yields the trimmed input first and no duplicate
variants; an empty or whitespace-only address yields no variants. -/
theorem claim_C4 (address : String) :
    (trimStr address = "" → generateAddressVariants address = []) ∧
    (trimStr address ≠ "" →
      (generateAddressVariants address).head? = some (trimStr address) ∧
      (generateAddressVariants address).Nodup) := by
  constructor
  · intro h
    simp [generateAddressVariants, h]
  · intro h
    obtain ⟨t, he, hn⟩ := gen_core_shape address h
    rw [he]
    constructor
    · rw [List.filter_cons_of_pos (by simpa using h)]
      rfl
    · exact hn.filter _

/-- C4 witness: both parts applied to concrete addresses. -/
theorem claim_C4_witness :
    (trimStr "   " = "" ∧ generateAddressVariants "   " = []) ∧
    (trimStr "413 5th St" ≠ "" ∧
      (generateAddressVariants "413 5th St").head? = some (trimStr "413 5th St") ∧
      (generateAddressVariants "413 5th St").Nodup) :=
  ⟨⟨by decide, (claim_C4 "   ").1 (by decide)⟩,
   ⟨by decide, (claim_C4 "413 5th St").2 (by decide)⟩⟩

/- ===================== C9 ===================== -/

lemma dirVariant_ne_empty (a d b : String) : (a ++ " " ++ d ++ " " ++ b) ≠ "" := by
  intro hcon
  have hlen := congrArg String.length hcon
  have hsp : (" " : String).length = 1 := rfl
  simp [String.length_append, hsp] at hlen

/-- C9: with no directional token and a leading house number, each of the
four directional insertions is a variant; with a directional token present,
every variant is the base or one of the two substitution passes (no
directional variant is added). -/
theorem claim_C9 (address num rest : String) :
    (hasDirectional (trimStr address) = false →
     houseNumberSplit (trimStr address) = some (num, rest) →
     ∀ d ∈ (["E", "W", "N", "S"] : List String),
       (num ++ " " ++ d ++ " " ++ rest) ∈ generateAddressVariants address) ∧
    (hasDirectional (trimStr address) = true →
     ∀ v ∈ generateAddressVariants address,
       v = trimStr address ∨ v = swapWords (trimStr address) abbrToFull ∨
       v = swapWords (trimStr address) fullToAbbr) := by
  constructor
  · intro hd hhn d hdmem
    have hbase : ¬ trimStr address = "" := by
      intro he
      have hnone : houseNumberSplit "" = none := rfl
      rw [he, hnone] at hhn
      exact absurd hhn (by simp)
    unfold generateAddressVariants
    rw [if_neg hbase]
    simp only [hd, Bool.not_false, if_true]
    simp only [hhn]
    refine List.mem_filter.mpr ⟨?_, ?_⟩
    · exact foldl_addUnique_mem_insert (fun d => num ++ " " ++ d ++ " " ++ rest) _ _ d hdmem
    · simpa using dirVariant_ne_empty num d rest
  · intro hd v hv
    have hbase : ¬ trimStr address = "" := by
      intro he
      rw [he] at hd
      exact absurd hd (by decide)
    unfold generateAddressVariants at hv
    rw [if_neg hbase] at hv
    simp only [hd, Bool.not_true, Bool.false_eq_true, if_false] at hv
    have hv2 := (List.mem_filter.mp hv).1
    rcases mem_addUnique_elim hv2 with h1 | h1
    · rcases mem_addUnique_elim h1 with h2 | h2
      · left
        have e0 : addUnique [] (trimStr address) = [trimStr address] := rfl
        rw [e0] at h2
        simpa using h2
      · right; left; exact h2
    · right; right; exact h1

/-- C9 witness: 413 5th St has no directional token, splits as 413 and
5th St, and gains the variant 413 E 5th St; 413 E Main St has a directional
token and every variant of it is the base or a substitution pass. -/
theorem claim_C9_witness :
    (hasDirectional (trimStr "413 5th St") = false ∧
     houseNumberSplit (trimStr "413 5th St") = some ("413", "5th St") ∧
     ("413" ++ " " ++ "E" ++ " " ++ "5th St") ∈ generateAddressVariants "413 5th St") ∧
    (hasDirectional (trimStr "413 E Main St") = true ∧
     ∀ v ∈ generateAddressVariants "413 E Main St",
       v = trimStr "413 E Main St" ∨ v = swapWords (trimStr "413 E Main St") abbrToFull ∨
       v = swapWords (trimStr "413 E Main St") fullToAbbr) :=
  ⟨⟨by decide, by decide,
    (claim_C9 "413 5th St" "413" "5th St").1 (by decide) (by decide) "E" (by decide)⟩,
   ⟨by decide, (claim_C9 "413 E Main St" "" "").2 (by decide)⟩⟩

/- ===================== pickLoop characterization (C6, C10) ===================== -/

lemma scoreResult_nonneg (tA tC : String) (r : JVal) : 0 ≤ scoreResult tA tC r := by
  unfold scoreResult
  split_ifs <;> norm_num

/-- The selection loop returns its accumulator when nothing beats it, and
otherwise the first element attaining the maximal score. -/
lemma pickLoop_spec (tA tC : String) :
    ∀ (l : List JVal) (acc : Option JVal × Int),
      (pickLoop tA tC l acc = acc ∧ ∀ r ∈ l, scoreResult tA tC r ≤ acc.2) ∨
      (∃ i r, l[i]? = some r ∧
        pickLoop tA tC l acc = (some r, scoreResult tA tC r) ∧
        acc.2 < scoreResult tA tC r ∧
        (∀ (j : Nat) (q : JVal), j < i → l[j]? = some q → scoreResult tA tC q < scoreResult tA tC r) ∧
        (∀ (j : Nat) (q : JVal), l[j]? = some q → scoreResult tA tC q ≤ scoreResult tA tC r)) := by
  intro l
  induction l with
  | nil =>
    intro acc
    left
    exact ⟨rfl, by simp⟩
  | cons x xs ih =>
    intro acc
    by_cases hgt : scoreResult tA tC x > acc.2
    · have hstep : pickLoop tA tC (x :: xs) acc
          = pickLoop tA tC xs (some x, scoreResult tA tC x) := by
        simp [pickLoop, hgt]
      rcases ih (some x, scoreResult tA tC x) with ⟨heq, hle⟩ |
        ⟨i, r, hget, heq, hlt, hstrict, hle⟩
      · right
        refine ⟨0, x, by simp, by rw [hstep, heq], hgt, ?_, ?_⟩
        · intro j q hj hq
          exact absurd hj (Nat.not_lt_zero j)
        · intro j q hq
          cases j with
          | zero => simp at hq; subst hq; exact le_refl _
          | succ n =>
            simp at hq
            exact hle q (List.getElem?_mem hq)
      · right
        refine ⟨i + 1, r, by simpa using hget, by rw [hstep, heq], ?_, ?_, ?_⟩
        · exact lt_trans hgt hlt
        · intro j q hj hq
          cases j with
          | zero => simp at hq; subst hq; exact hlt
          | succ n =>
            simp at hq
            exact hstrict n q (Nat.lt_of_succ_lt_succ hj) hq
        · intro j q hq
          cases j with
          | zero => simp at hq; subst hq; exact le_of_lt hlt
          | succ n =>
            simp at hq
            exact hle n q hq
    · have hnle : scoreResult tA tC x ≤ acc.2 := le_of_not_lt hgt
      have hstep : pickLoop tA tC (x :: xs) acc = pickLoop tA tC xs acc := by
        simp [pickLoop, hgt]
      rcases ih acc with ⟨heq, hle⟩ | ⟨i, r, hget, heq, hlt, hstrict, hle⟩
      · left
        refine ⟨by rw [hstep, heq], ?_⟩
        intro r hr
        rcases List.mem_cons.mp hr with h1 | h1
        · subst h1; exact hnle
        · exact hle r h1
      · right
        refine ⟨i + 1, r, by simpa using hget, by rw [hstep, heq], hlt, ?_, ?_⟩
        · intro j q hj hq
          cases j with
          | zero => simp at hq; subst hq; exact lt_of_le_of_lt hnle hlt
          | succ n =>
            simp at hq
            exact hstrict n q (Nat.lt_of_succ_lt_succ hj) hq
        · intro j q hq
          cases j with
          | zero => simp at hq; subst hq; exact le_of_lt (lt_of_le_of_lt hnle hlt)
          | succ n =>
            simp at hq
            exact hle n q hq

/- ===================== C6 ===================== -/

/-- C6: for a non-empty result list the selection is the first result whose
score (2 for containing the normalized query address, plus 1 for containing
the normalized query city) is maximal: every result scores at most the
winner, every earlier result scores strictly less, and some result is always
selected even when the maximum score is 0. -/
theorem claim_C6 (results : List JVal) (address city : String)
    (hne : results ≠ []) :
    ∃ i r, results[i]? = some r ∧
      pickBestSearchResult results address city =
        (some r, scoreResult (normS address) (normS city) r) ∧
      (∀ (j : Nat) (q : JVal), results[j]? = some q →
        scoreResult (normS address) (normS city) q ≤
          scoreResult (normS address) (normS city) r) ∧
      (∀ (j : Nat) (q : JVal), j < i → results[j]? = some q →
        scoreResult (normS address) (normS city) q <
          scoreResult (normS address) (normS city) r) := by
  rcases pickLoop_spec (normS address) (normS city) results (none, -1) with
    ⟨heq, hle⟩ | ⟨i, r, hget, heq, hlt, hstrict, hle⟩
  · cases results with
    | nil => exact absurd rfl hne
    | cons x xs =>
      have h1 : scoreResult (normS address) (normS city) x ≤ -1 :=
        hle x (List.mem_cons_self x xs)
      have h2 := scoreResult_nonneg (normS address) (normS city) x
      omega
  · exact ⟨i, r, hget, heq, hle, hstrict⟩

/-- C6 witness: a single matching result is selected with its score. -/
theorem claim_C6_witness :
    ∃ i r,
      ([JVal.obj (objOf [("address", .str "100 Elm St, Springfield, IL")])] : List JVal)[i]? = some r ∧
      pickBestSearchResult [JVal.obj (objOf [("address", .str "100 Elm St, Springfield, IL")])]
          "100 Elm St" "Springfield" =
        (some r, scoreResult (normS "100 Elm St") (normS "Springfield") r) ∧
      (∀ (j : Nat) (q : JVal),
        ([JVal.obj (objOf [("address", .str "100 Elm St, Springfield, IL")])] : List JVal)[j]? = some q →
        scoreResult (normS "100 Elm St") (normS "Springfield") q ≤
          scoreResult (normS "100 Elm St") (normS "Springfield") r) ∧
      (∀ (j : Nat) (q : JVal), j < i →
        ([JVal.obj (objOf [("address", .str "100 Elm St, Springfield, IL")])] : List JVal)[j]? = some q →
        scoreResult (normS "100 Elm St") (normS "Springfield") q <
          scoreResult (normS "100 Elm St") (normS "Springfield") r) :=
  claim_C6 [JVal.obj (objOf [("address", .str "100 Elm St, Springfield, IL")])]
    "100 Elm St" "Springfield" (by simp)

/- ===================== response status lemmas ===================== -/

lemma sendExpanded_status (h : ApiHit) : (sendExpanded h).status = 200 := rfl

lemma scrapeFlow_status (env : Env) (body : ReqBody) : (scrapeFlow env body).status = 200 := by
  unfold scrapeFlow
  repeat' first
    | rfl
    | split
    | dsimp only

lemma handler_status_of_valid (env : Env) (body : ReqBody)
    (hauth : env.authOk = true) (ha : truthyS body.address = true)
    (hc : truthyS body.city = true) (hs : truthyS body.state = true) :
    (zestimateHandler env body).status = 200 := by
  unfold zestimateHandler
  rw [hauth, ha, hc, hs]
  simp only [Bool.not_true, Bool.false_or, Bool.or_self, Bool.false_eq_true, if_false]
  split
  · split
    · exact sendExpanded_status _
    · exact scrapeFlow_status env body
  · exact scrapeFlow_status env body

/- ===================== C10 ===================== -/

/-- C10: when the query address normalizes to the empty string, every
candidate scores at least 2 (the empty string is a substring of every
normalized candidate address) and the score is decided solely by city
containment; the required-fields check tests truthiness without trimming,
so such a request is not rejected and resolution proceeds; the selection
still picks a (first) result; and the fuzzy confidence is always at least
20. -/
theorem claim_C10 :
    (∀ (a tc : String) (r : JVal), normS a = "" →
      scoreResult (normS a) tc r =
        2 + (if strContains (candAddrText r) tc then 1 else 0) ∧
      2 ≤ scoreResult (normS a) tc r) ∧
    (∀ (env : Env) (a c s : String) (z : Option String), env.authOk = true →
      a ≠ "" → c ≠ "" → s ≠ "" →
      (zestimateHandler env
        { address := some a, city := some c, state := some s, zip := z }).status = 200) ∧
    (∀ (results : List JVal) (a c : String), normS a = "" → results ≠ [] →
      ∃ (i : Nat) (r : JVal), results[i]? = some r ∧
        (pickBestSearchResult results a c).1 = some r ∧
        2 ≤ (pickBestSearchResult results a c).2) ∧
    (∀ (u : String) (zp : Option Int) (s : Int), ∃ m,
      (docSuccessResp u zp none s).match_confidence = some m ∧ 20 ≤ m) := by
  have hscore : ∀ (a tc : String) (r : JVal), normS a = "" →
      scoreResult (normS a) tc r =
        2 + (if strContains (candAddrText r) tc then 1 else 0) ∧
      2 ≤ scoreResult (normS a) tc r := by
    intro a tc r h
    rw [h]
    unfold scoreResult
    rw [strContains_empty_pat, if_pos rfl]
    constructor
    · rfl
    · split <;> omega
  refine ⟨hscore, ?_, ?_, ?_⟩
  · intro env a c s z hauth ha hc hs
    exact handler_status_of_valid env _ hauth (by simp [truthyS, ha])
      (by simp [truthyS, hc]) (by simp [truthyS, hs])
  · intro results a c hnorm hne
    rcases pickLoop_spec (normS a) (normS c) results (none, -1) with
      ⟨heq, hle⟩ | ⟨i, r, hget, heq, hlt, hstrict, hle⟩
    · cases results with
      | nil => exact absurd rfl hne
      | cons x xs =>
        have h1 : scoreResult (normS a) (normS c) x ≤ -1 :=
          hle x (List.mem_cons_self x xs)
        have h2 := scoreResult_nonneg (normS a) (normS c) x
        omega
    · refine ⟨i, r, hget, ?_, ?_⟩
      · unfold pickBestSearchResult
        rw [heq]
      · unfold pickBestSearchResult
        rw [heq]
        exact (hscore a (normS c) r hnorm).2
  · intro u zp s
    refine ⟨if optIntTruthy none then 90 else max 20 (jsNumOr s 0 * 10), rfl, ?_⟩
    simp [optIntTruthy, le_max_left]

/-- C10 witness: a punctuation-only address normalizes to the empty string,
scores an unrelated candidate at least 2, passes the required-fields check
(status 200, not 400), selects the unrelated first result, and the fuzzy
confidence is at least 20. -/
theorem claim_C10_witness :
    (normS " !" = "" ∧
     2 ≤ scoreResult (normS " !") (normS "Springfield")
        (JVal.obj (objOf [("address", .str "999 Nowhere Ln, Elsewhere ZZ")]))) ∧
    (zestimateHandler probeEnv
      { address := some " ", city := some "Austin", state := some "TX",
        zip := none }).status = 200 ∧
    (∃ (i : Nat) (r : JVal),
      ([JVal.obj (objOf [("address", .str "999 Nowhere Ln, Elsewhere ZZ")])] : List JVal)[i]? = some r ∧
      (pickBestSearchResult [JVal.obj (objOf [("address", .str "999 Nowhere Ln, Elsewhere ZZ")])]
        " !" "Springfield").1 = some r ∧
      2 ≤ (pickBestSearchResult [JVal.obj (objOf [("address", .str "999 Nowhere Ln, Elsewhere ZZ")])]
        " !" "Springfield").2) ∧
    (∃ m, (docSuccessResp "https://www.zillow.com/x" none none 2).match_confidence =
      some m ∧ 20 ≤ m) :=
  ⟨⟨by decide, (claim_C10.1 " !" (normS "Springfield")
      (JVal.obj (objOf [("address", .str "999 Nowhere Ln, Elsewhere ZZ")])) (by decide)).2⟩,
   claim_C10.2.1 probeEnv " " "Austin" "TX" none rfl (by decide) (by decide) (by decide),
   claim_C10.2.2.1 [JVal.obj (objOf [("address", .str "999 Nowhere Ln, Elsewhere ZZ")])]
     " !" "Springfield" (by decide) (by simp),
   claim_C10.2.2.2 "https://www.zillow.com/x" none 2⟩

/- ===================== C3 ===================== -/

/-- C3: enumeration is variant-major: with two variants and two shapes the
attempt order is (V1,S1), (V1,S2), (V2,S1), (V2,S2); in general every shape
of the first variant precedes every attempt of later variants; and the
strict lookup returns the hit of the first acceptable attempt in this
order over the generated address variants and the fixed shape table. -/
theorem claim_C3 :
    (∀ (v1 v2 : String) (s1 s2 : Nat),
      attemptPairs [v1, v2] [s1, s2] = [(v1, s1), (v1, s2), (v2, s1), (v2, s2)]) ∧
    (∀ (v : String) (vs : List String) (ss : List Nat),
      attemptPairs (v :: vs) ss = ss.map (fun s => (v, s)) ++ attemptPairs vs ss) ∧
    (∀ (env : Env) (address city state zip : Option String)
       (i : Nat) (p : String × Nat) (h : ApiHit),
      env.hasRapidKeys = true →
      (attemptPairs (generateAddressVariants (strOrEmpty address))
        (List.range candidateShapes.length))[i]? = some p →
      attemptResult env (mkWant city state zip) p = some h →
      (∀ (j : Nat) (q : String × Nat), j < i →
        (attemptPairs (generateAddressVariants (strOrEmpty address))
          (List.range candidateShapes.length))[j]? = some q →
        attemptResult env (mkWant city state zip) q = none) →
      rapidApiLookupStrict env address city state zip = .hit h) := by
  refine ⟨?_, ?_, ?_⟩
  · intro v1 v2 s1 s2
    rfl
  · intro v vs ss
    simp [attemptPairs]
  · intro env address city state zip i p h hkeys hget hacc hnone
    unfold rapidApiLookupStrict
    rw [hkeys]
    simp only [Bool.not_true, Bool.false_eq_true, if_false]
    rw [findSome?_of_first (attemptResult env (mkWant city state zip)) _ i p h hget hacc hnone]

/-- C3 witness: the two-by-two enumeration order at concrete variants and
shapes, and the lookup stopping at the first (index 0) acceptable attempt. -/
theorem claim_C3_witness :
    attemptPairs ["a", "b"] [0, 1] = [("a", 0), ("a", 1), ("b", 0), ("b", 1)] ∧
    (hitEnv.hasRapidKeys = true ∧
     (attemptPairs (generateAddressVariants (strOrEmpty (some "123 Main St")))
       (List.range candidateShapes.length))[0]? = some ("123 Main St", 0) ∧
     attemptResult hitEnv (mkWant (some "Springfield") (some "IL") (some "62704"))
       ("123 Main St", 0) = some hitH ∧
     rapidApiLookupStrict hitEnv (some "123 Main St") (some "Springfield")
       (some "IL") (some "62704") = .hit hitH) :=
  ⟨claim_C3.1 "a" "b" 0 1,
   rfl,
   by decide,
   rfl,
   claim_C3.2.2 hitEnv (some "123 Main St") (some "Springfield") (some "IL")
     (some "62704") 0 ("123 Main St", 0) hitH rfl (by decide) rfl
     (fun j q hj _ => absurd hj (Nat.not_lt_zero j))⟩

/- ===================== C7 ===================== -/

lemma jsNumOr_zero (s : Int) : jsNumOr s 0 = s := by
  unfold jsNumOr
  split
  · rfl
  · next h =>
    simp at h
    omega

/-- C7: with a truthy extracted valuation the confidence is 90 on the
document path and 85 on the API path; without one the document path yields
max(20, score times 10) and the API path yields 60. -/
theorem claim_C7 :
    (∀ (u : String) (zp : Option Int) (z s : Int), z ≠ 0 →
      (docSuccessResp u zp (some z) s).match_confidence = some 90) ∧
    (∀ (u : String) (zp : Option Int) (s : Int),
      (docSuccessResp u zp none s).match_confidence = some (max 20 (s * 10))) ∧
    (∀ h : ApiHit, (sendExpandedZestimate h).truthy = true →
      (sendExpanded h).match_confidence = some 85) ∧
    (∀ h : ApiHit, (sendExpandedZestimate h).truthy = false →
      (sendExpanded h).match_confidence = some 60) := by
  refine ⟨?_, ?_, ?_, ?_⟩
  · intro u zp z s hz
    simp [docSuccessResp, optIntTruthy, hz]
  · intro u zp s
    simp [docSuccessResp, optIntTruthy, jsNumOr_zero]
  · intro h hz
    simp [sendExpanded, hz]
  · intro h hz
    simp [sendExpanded, hz]

/-- C7 witness: the four confidence cases at concrete inputs. -/
theorem claim_C7_witness :
    (docSuccessResp "https://www.zillow.com/x" none (some 250000) 2).match_confidence = some 90 ∧
    (docSuccessResp "https://www.zillow.com/x" none none 3).match_confidence = some (max 20 (3 * 10)) ∧
    ((sendExpandedZestimate hitH).truthy = true ∧
      (sendExpanded hitH).match_confidence = some 85) ∧
    ((sendExpandedZestimate noValHit).truthy = false ∧
      (sendExpanded noValHit).match_confidence = some 60) :=
  ⟨claim_C7.1 "https://www.zillow.com/x" none 250000 2 (by norm_num),
   claim_C7.2.1 "https://www.zillow.com/x" none 3,
   ⟨rfl, claim_C7.2.2.1 hitH rfl⟩,
   ⟨rfl, claim_C7.2.2.2 noValHit rfl⟩⟩

/- ===================== C2 ===================== -/

/-- With no launch failure, no API hit and an exhausted document path, the
Playwright branch returns one of the empty successful results. -/
lemma scrapeFlow_empty (env : Env) (body : ReqBody)
    (hapi : isHit (rapidApiLookupStrict env body.address body.city body.state body.zip) = false)
    (hlaunch : env.launchCrash = none)
    (hdoc : docNoMatch env body = true) :
    ∃ n, scrapeFlow env body = emptyResp n ∧ n ≠ "" := by
  unfold scrapeFlow
  rw [hlaunch]
  cases hsb : env.searchBlob with
  | none =>
    simp only []
    by_cases hk : env.hasRapidKeys
    · rw [if_pos hk]
      cases hm : rapidApiLookupStrict env body.address body.city body.state body.zip with
      | hit h => rw [hm] at hapi; exact absurd hapi (by simp [isHit])
      | miss r =>
        exact ⟨"No matching record from RapidAPI for the requested city/ZIP.", rfl, by decide⟩
    · rw [if_neg hk]
      exact ⟨"No search data blob found.", rfl, by decide⟩
  | some parsed =>
    unfold docNoMatch at hdoc
    rw [hsb] at hdoc
    cases hlr : docListResults env with
    | arr es =>
      rw [hlr] at hdoc
      simp only [] at hdoc ⊢
      by_cases hemp : es.toList.isEmpty
      · rw [if_pos hemp]
        exact ⟨"No search results in blob.", rfl, by decide⟩
      · rw [if_neg hemp]
        rw [if_neg hemp] at hdoc
        cases hb : (pickBestSearchResult es.toList (strOrEmpty body.address)
            (strOrEmpty body.city)).1 with
        | none =>
          exact ⟨"No matching property found.", rfl, by decide⟩
        | some b =>
          rw [hb] at hdoc
          dsimp only at hdoc
          dsimp only
          rw [if_pos hdoc]
          exact ⟨"No matching property found.", rfl, by decide⟩
    | undefined => dsimp only; exact ⟨"No search results in blob.", rfl, by decide⟩
    | null => dsimp only; exact ⟨"No search results in blob.", rfl, by decide⟩
    | bool b => dsimp only; exact ⟨"No search results in blob.", rfl, by decide⟩
    | num n => dsimp only; exact ⟨"No search results in blob.", rfl, by decide⟩
    | str s => dsimp only; exact ⟨"No search results in blob.", rfl, by decide⟩
    | obj fs => dsimp only; exact ⟨"No search results in blob.", rfl, by decide⟩

/-- C2: for a well-formed authorized query, when the API lookup accepts no
candidate, the launch does not fail and the document path is exhausted, the
response is exactly the successful empty result: status 200, ok true, null
zestimate, zpid and property url, confidence 0 and a non-empty note. -/
theorem claim_C2 (env : Env) (body : ReqBody)
    (hauth : env.authOk = true)
    (ha : truthyS body.address = true) (hc : truthyS body.city = true)
    (hs : truthyS body.state = true)
    (hapi : isHit (rapidApiLookupStrict env body.address body.city body.state body.zip) = false)
    (hlaunch : env.launchCrash = none)
    (hdoc : docNoMatch env body = true) :
    (zestimateHandler env body).status = 200 ∧
    (zestimateHandler env body).ok = true ∧
    (zestimateHandler env body).zestimate = .null ∧
    (zestimateHandler env body).zpid = .null ∧
    (zestimateHandler env body).property_url = .null ∧
    (zestimateHandler env body).match_confidence = some 0 ∧
    ∃ n, (zestimateHandler env body).note = some n ∧ n ≠ "" := by
  obtain ⟨n, he, hn⟩ := scrapeFlow_empty env body hapi hlaunch hdoc
  have hhandler : zestimateHandler env body = scrapeFlow env body := by
    unfold zestimateHandler
    rw [hauth, ha, hc, hs]
    simp only [Bool.not_true, Bool.false_or, Bool.or_self, Bool.false_eq_true, if_false]
    split
    · cases hm : rapidApiLookupStrict env body.address body.city body.state body.zip with
      | hit h => rw [hm] at hapi; exact absurd hapi (by simp [isHit])
      | miss r => rfl
    · rfl
  rw [hhandler, he]
  exact ⟨rfl, rfl, rfl, rfl, rfl, rfl, n, rfl, hn⟩

/-- C2 witness: an authorized well-formed query against an environment with
no API keys and no document blob yields the empty successful result. -/
theorem claim_C2_witness :
    isHit (rapidApiLookupStrict probeEnv (some "123 Main St") (some "Springfield")
      (some "IL") none) = false ∧
    docNoMatch probeEnv
      { address := some "123 Main St", city := some "Springfield",
        state := some "IL", zip := none } = true ∧
    ((zestimateHandler probeEnv
        { address := some "123 Main St", city := some "Springfield",
          state := some "IL", zip := none }).status = 200 ∧
     (zestimateHandler probeEnv
        { address := some "123 Main St", city := some "Springfield",
          state := some "IL", zip := none }).ok = true ∧
     (zestimateHandler probeEnv
        { address := some "123 Main St", city := some "Springfield",
          state := some "IL", zip := none }).zestimate = .null ∧
     (zestimateHandler probeEnv
        { address := some "123 Main St", city := some "Springfield",
          state := some "IL", zip := none }).zpid = .null ∧
     (zestimateHandler probeEnv
        { address := some "123 Main St", city := some "Springfield",
          state := some "IL", zip := none }).property_url = .null ∧
     (zestimateHandler probeEnv
        { address := some "123 Main St", city := some "Springfield",
          state := some "IL", zip := none }).match_confidence = some 0 ∧
     ∃ n, (zestimateHandler probeEnv
        { address := some "123 Main St", city := some "Springfield",
          state := some "IL", zip := none }).note = some n ∧ n ≠ "") :=
  ⟨rfl, rfl,
   claim_C2 probeEnv
     { address := some "123 Main St", city := some "Springfield",
       state := some "IL", zip := none }
     rfl (by decide) (by decide) (by decide) rfl rfl rfl⟩

/- ===================== C8 ===================== -/

/-- C8, counterexample: a whitespace-only address trims to the empty string,
yet the handler does not reject with 400; the required-fields check tests
truthiness without trimming, so resolution proceeds and returns 200. -/
theorem claim_C8_counterexample :
    trimStr " " = "" ∧
    (zestimateHandler probeEnv
      { address := some " ", city := some "Springfield", state := some "IL",
        zip := none }).status = 200 ∧
    (zestimateHandler probeEnv
      { address := some " ", city := some "Springfield", state := some "IL",
        zip := none }).status ≠ 400 := by
  refine ⟨by decide, by decide, by decide⟩

/-- C8, amended: the handler rejects with the 400 bad-request response
exactly when address, city or state is missing or the empty string (no
trimming); when all three are truthy, even whitespace-only, resolution
proceeds and the response status is 200. -/
theorem claim_C8_amended :
    (∀ (env : Env) (body : ReqBody), env.authOk = true →
      (truthyS body.address && truthyS body.city && truthyS body.state) = false →
      zestimateHandler env body = badRequestResp) ∧
    (∀ (env : Env) (body : ReqBody), env.authOk = true →
      (truthyS body.address && truthyS body.city && truthyS body.state) = true →
      (zestimateHandler env body).status = 200) := by
  constructor
  · intro env body hauth hval
    unfold zestimateHandler
    rw [hauth]
    simp only [Bool.not_true, Bool.false_eq_true, if_false]
    have hcond : (!truthyS body.address || !truthyS body.city || !truthyS body.state) = true := by
      cases hA : truthyS body.address <;> cases hB : truthyS body.city <;>
        cases hC : truthyS body.state <;> simp_all
    rw [hcond]
    simp
  · intro env body hauth hval
    have h3 : truthyS body.address = true ∧ truthyS body.city = true ∧
        truthyS body.state = true := by
      cases hA : truthyS body.address <;> cases hB : truthyS body.city <;>
        cases hC : truthyS body.state <;> simp_all
    exact handler_status_of_valid env body hauth h3.1 h3.2.1 h3.2.2

/-- C8 witness: a request with no city is rejected with the 400 response;
a whitespace-only address passes the check and resolution answers 200. -/
theorem claim_C8_witness :
    ((truthyS (some "123 Main St") && truthyS (none : Option String) &&
        truthyS (some "IL")) = false ∧
     zestimateHandler probeEnv
       { address := some "123 Main St", city := none, state := some "IL",
         zip := none } = badRequestResp) ∧
    ((truthyS (some " ") && truthyS (some "Springfield") && truthyS (some "IL")) = true ∧
     (zestimateHandler probeEnv
       { address := some " ", city := some "Springfield", state := some "IL",
         zip := none }).status = 200) :=
  ⟨⟨by decide,
    claim_C8_amended.1 probeEnv
      { address := some "123 Main St", city := none, state := some "IL", zip := none }
      rfl (by decide)⟩,
   ⟨by decide,
    claim_C8_amended.2 probeEnv
      { address := some " ", city := some "Springfield", state := some "IL", zip := none }
      rfl (by decide)⟩⟩
